import Mathlib

/-!
Shallow embedding of the Topic class from src/src/topic/topic.ts:
the sorted message cache, identifier reconciliation (swapMessageId),
deletion-range planning and flushing (delMessages), read/recv watermark
notes (note), and the optimistic publish pipeline (publishDraft /
publishMessage).  JavaScript truthiness of optional numeric fields is made
explicit; machine numbers are modelled as Int (topic sequence ids are small
integers, no overflow is reachable in the source paths modelled here).
-/

/-- Modelled from the spec: AppSettings.LOCAL_SEQ_ID comes from ../constants,
which is not under src/.  It is the lower boundary of the locally issued
(provisional) identifier range: queuedSeqId starts at this value
(topic.ts line 63) and confirmed server identifiers are strictly below it. -/
def LOCAL_SEQ_ID : Int := 268435455

/-- A cached message packet: the fields of Packet.PubPacketData that the
operations verified here read or write.  Payload, timestamps and the sender
are elided as opaque; seq 0 models an unassigned (JS-falsy) seq. -/
structure Message where
  seq : Int
  sending : Bool
  failed : Bool
  cancelled : Bool
  noForwarding : Bool
deriving Repr, DecidableEq

/-- A fresh draft message carrying only a seq value, all flags cleared. -/
def mkMsg (s : Int) : Message :=
  { seq := s, sending := false, failed := false, cancelled := false, noForwarding := false }

/-- DelRange from ../models/del-range: a low bound plus an optional exclusive
upper bound; none models an absent hi field. -/
structure DelRange where
  low : Int
  hi : Option Int
deriving Repr, DecidableEq

/-- JavaScript truthiness of an optional numeric field: undefined and 0 are
falsy, every other number is truthy. -/
def jsTruthy : Option Int → Bool
  | none => false
  | some v => v != 0

/-- JavaScript comparison x >= y where either side may be undefined; a
comparison against undefined evaluates to false. -/
def jsGe : Option Int → Option Int → Bool
  | some a, some b => decide (b ≤ a)
  | some _, none => false
  | none, _ => false

/-- JavaScript comparison x < n where x may be undefined (false then). -/
def jsLt : Option Int → Int → Bool
  | some a, b => decide (a < b)
  | none, _ => false

/-- The comparator passed to ranges.sort in delMessages (topic.ts 424-432).
A positive return value means r1 is placed after r2. -/
def delRangeCmp (r1 r2 : DelRange) : Int :=
  if r1.low < r2.low then 1
  else if r1.low = r2.low then
    if !jsTruthy r2.hi || jsGe r1.hi r2.hi then 1 else -1
  else -1

/-- Insert one range into an already sorted list according to delRangeCmp:
a non-positive comparator value places r before the current head. -/
def sortInsert (r : DelRange) : List DelRange → List DelRange
  | [] => [r]
  | x :: xs => if delRangeCmp r x ≤ 0 then r :: x :: xs else x :: sortInsert r xs

/-- Array.prototype.sort with delRangeCmp, modelled as insertion sort; the
comparator never returns 0 on the reachable inputs, so the engine-specific
tie handling of JS sorts cannot be observed. -/
def jsSortRanges : List DelRange → List DelRange
  | [] => []
  | x :: xs => sortInsert x (jsSortRanges xs)

/-- The reduce in delMessages (topic.ts 434-448) that builds the ranges sent
to the server: a range starting below LOCAL_SEQ_ID is kept; it is passed
through unchanged when its hi is falsy or below LOCAL_SEQ_ID, and otherwise
its hi is clipped to maxSeq + 1.  Ranges starting at or above LOCAL_SEQ_ID
are dropped. -/
def delMessagesToSend (maxSeq : Int) : List DelRange → List DelRange
  | [] => []
  | r :: rs =>
    if r.low < LOCAL_SEQ_ID then
      (if !jsTruthy r.hi || jsLt r.hi LOCAL_SEQ_ID then r
       else { low := r.low, hi := some (maxSeq + 1) }) :: delMessagesToSend maxSeq rs
    else
      delMessagesToSend maxSeq rs

/-- Modelled from the spec: the body of flushMessage is an empty stub in
src/ (topic.ts 679).  Per the spec a deletion whose hi is absent covers the
half-open interval from low to the end of the known range, so the flush
removes every cached message with low ≤ seq. -/
def flushMessage (msgs : List Message) (low : Int) : List Message :=
  msgs.filter (fun m => decide (m.seq < low))

/-- Modelled from the spec: the body of flushMessageRange is an empty stub
in src/ (topic.ts 681).  Per the spec deleteRange removes every entry with
low ≤ seq < hi. -/
def flushMessageRange (msgs : List Message) (low hi : Int) : List Message :=
  msgs.filter (fun m => decide (m.seq < low) || decide (hi ≤ m.seq))

/-- One step of the forEach in delMessages (topic.ts 467-473): a truthy hi
dispatches to flushMessageRange, otherwise flushMessage. -/
def flushOne (msgs : List Message) (r : DelRange) : List Message :=
  if jsTruthy r.hi then flushMessageRange msgs r.low (r.hi.getD 0)
  else flushMessage msgs r.low

/-- The forEach in delMessages applied to the (sorted in place) range list. -/
def applyFlushes (msgs : List Message) : List DelRange → List Message
  | [] => msgs
  | r :: rs => applyFlushes (flushOne msgs r) rs

/-- The mutable per-topic fields of the Topic class that the verified
operations touch. -/
structure TopicState where
  subscribed : Bool
  maxSeq : Int
  maxDel : Int
  messages : List Message
  queuedSeqId : Int
deriving Repr, DecidableEq

/-- The ctrl payload of a delete response: ctrl.params.del. -/
structure DelCtrl where
  del : Int
deriving Repr, DecidableEq

/-- Outcome of a delMessages call as seen by the caller. -/
inductive DelOutcome
  | inactiveError
  | remoteRejected (e : Nat)
  | ok (ctrl : DelCtrl)
deriving Repr, DecidableEq

/-- The fulfilled branch of the promise in delMessages (topic.ts 462-479):
raise maxDel to ctrl.params.del if larger, then flush every range of the
sorted list from the local cache. -/
def delApply (st : TopicState) (sorted : List DelRange) (ctrl : DelCtrl) : TopicState :=
  { st with
    maxDel := if st.maxDel < ctrl.del then ctrl.del else st.maxDel,
    messages := applyFlushes st.messages sorted }

/-- delMessages (topic.ts 418-480).  resp models the Session collaborator's
answer to tinode.delMessages; it is consulted only when the computed tosend
list is non-empty.  The Bool in the result records whether the remote delete
call was made. -/
def delMessages (st : TopicState) (ranges : List DelRange) (resp : Except Nat DelCtrl) :
    TopicState × DelOutcome × Bool :=
  if st.subscribed = false then (st, DelOutcome.inactiveError, false)
  else
    let sorted := jsSortRanges ranges
    let tosend := delMessagesToSend st.maxSeq sorted
    if tosend.isEmpty then
      (delApply st sorted { del := 0 }, DelOutcome.ok { del := 0 }, false)
    else
      match resp with
      | Except.error e => (st, DelOutcome.remoteRejected e, true)
      | Except.ok ctrl => (delApply st sorted ctrl, DelOutcome.ok ctrl, true)

/-- Modelled from the spec: CBuffer (../cbuffer) is not under src/.  Per the
spec, put inserts the entry preserving ascending seq order and is a no-op
when an entry with the same seq already exists. -/
def cbPut (l : List Message) (m : Message) : List Message :=
  match l with
  | [] => [m]
  | x :: xs =>
    if m.seq < x.seq then m :: x :: xs
    else if m.seq = x.seq then x :: xs
    else x :: cbPut xs m

/-- swapMessageId (topic.ts 142-158): locates the cached entry carrying the
old seq and overwrites its seq field in place (the packet object is shared
with the cache).  The removal and re-insertion that would restore sort order
is commented out in the source behind a FIXME, so the entry keeps its
position. -/
def swapMessageId (cache : List Message) (oldSeq newSeq : Int) : List Message :=
  cache.map (fun m => if m.seq = oldSeq then { m with seq := newSeq } else m)

/-- Kind argument of note: the recv or read watermark. -/
inductive NoteKind
  | recv
  | read
deriving Repr, DecidableEq

/-- A cached subscriber record: only the two watermark fields note touches;
none models a field never assigned (JS undefined). -/
structure UserRec where
  recv : Option Int
  read : Option Int
deriving Repr, DecidableEq

/-- Read the watermark selected by the note kind. -/
def getWm (u : UserRec) : NoteKind → Option Int
  | NoteKind.recv => u.recv
  | NoteKind.read => u.read

/-- Overwrite the watermark selected by the note kind. -/
def setWm (u : UserRec) : NoteKind → Int → UserRec
  | NoteKind.recv, s => { u with recv := some s }
  | NoteKind.read, s => { u with read := some s }

/-- The users map of the topic (a JS object keyed by user id), as an
association list with the first binding authoritative. -/
def usersLookup : List (Nat × UserRec) → Nat → Option UserRec
  | [], _ => none
  | (k, v) :: rest, uid => if k = uid then some v else usersLookup rest uid

/-- Replace the first binding of uid, mirroring in-place mutation of the
record object obtained from the users map. -/
def usersUpdate : List (Nat × UserRec) → Nat → UserRec → List (Nat × UserRec)
  | [], _, _ => []
  | (k, v) :: rest, uid, nv =>
    if k = uid then (k, nv) :: rest else (k, v) :: usersUpdate rest uid nv

/-- Result of a note call: the users map afterwards, whether tinode.note was
issued to the network, and whether the missing-user error was logged. -/
structure NoteResult where
  users : List (Nat × UserRec)
  sentNetwork : Bool
  userNotFound : Bool
deriving Repr, DecidableEq

/-- note (topic.ts 570-591).  The update guard is the JS condition
(not user[what]) or (user[what] < seq): a falsy stored watermark (undefined
or 0) always passes it.  When the guard passes, the network notification is
issued only while subscribed, and the watermark is stored in both cases.
The side update of the me-topic contact is outside this state and elided. -/
def note (sub : Bool) (users : List (Nat × UserRec)) (currentUser : Nat)
    (w : NoteKind) (seq : Int) : NoteResult :=
  match usersLookup users currentUser with
  | some user =>
    if !jsTruthy (getWm user w) || jsLt (getWm user w) seq then
      { users := usersUpdate users currentUser (setWm user w seq),
        sentNetwork := sub, userNotFound := false }
    else
      { users := users, sentNetwork := false, userNotFound := false }
  | none => { users := users, sentNetwork := false, userNotFound := true }

/-- The ctrl payload acknowledging a publish: ctrl.params.seq. -/
structure PubCtrl where
  seq : Int
deriving Repr, DecidableEq

/-- Outcome of the publish pipeline as seen by the caller of publishDraft or
publishMessage. -/
inductive DraftOutcome
  | rejectedInactive
  | serverCtrl (c : PubCtrl)
  | failedSwallowed
  | cancelledResult (code : Int)
deriving Repr, DecidableEq

/-- Clear the sending flag and set the failed flag on the cached entry with
the given seq (in-place mutation of the shared packet object). -/
def markFailed (msgs : List Message) (s : Int) : List Message :=
  msgs.map (fun m => if m.seq = s then { m with sending := false, failed := true } else m)

/-- Clear the sending flag on the cached entry with the given seq. -/
def clearSending (msgs : List Message) (s : Int) : List Message :=
  msgs.map (fun m => if m.seq = s then { m with sending := false } else m)

/-- publishMessage (topic.ts 173-203).  resp models the Session
collaborator's answer to tinode.publishMessage; the Bool in the result
records whether that call was made.  On success the seq of the cached packet
is swapped to the confirmed value; on rejection the entry is retained,
flagged failed, and the promise resolves with no value (failedSwallowed). -/
def publishMessage (st : TopicState) (pub : Message) (resp : Except Nat PubCtrl) :
    TopicState × DraftOutcome × Bool :=
  if st.subscribed = false then (st, DraftOutcome.rejectedInactive, false)
  else
    match resp with
    | Except.ok ctrl =>
      ({ st with messages := swapMessageId (clearSending st.messages pub.seq) pub.seq ctrl.seq },
       DraftOutcome.serverCtrl ctrl, true)
    | Except.error _ =>
      ({ st with messages := markFailed st.messages pub.seq },
       DraftOutcome.failedSwallowed, true)

/-- Modelled from the spec: getQueuedSeqId is an empty stub in src/
(topic.ts 698-700).  Per the spec the ProvisionalIdAllocator issues a fresh
identifier disjoint from confirmed space; queuedSeqId starts at
LOCAL_SEQ_ID (topic.ts 63) and each call advances it. -/
def getQueuedSeqId (st : TopicState) : Int :=
  st.queuedSeqId + 1

/-- Result of the synchronous queueing phase of publishDraft. -/
structure QueueResult where
  st : TopicState
  pub : Message
  queueRejected : Bool
  dataEmitted : Bool
deriving Repr, DecidableEq

/-- The synchronous part of publishDraft (topic.ts 214-233): the inactive
check fires only when no precondition promise is supplied; otherwise a falsy
seq is replaced by a fresh provisional id, and unless noForwarding is
already set, the draft is stamped, inserted into the message cache and the
onData notification fires at once. -/
def publishDraftQueue (st : TopicState) (pub : Message) (promSupplied : Bool) : QueueResult :=
  if !promSupplied && !st.subscribed then
    { st := st, pub := pub, queueRejected := true, dataEmitted := false }
  else
    let seq := if pub.seq != 0 then pub.seq else getQueuedSeqId st
    if pub.noForwarding then
      { st := st, pub := pub, queueRejected := false, dataEmitted := false }
    else
      let pub2 := { pub with seq := seq, noForwarding := true }
      { st := { st with
                  messages := cbPut st.messages pub2,
                  queuedSeqId := if pub.seq != 0 then st.queuedSeqId else st.queuedSeqId + 1 },
        pub := pub2, queueRejected := false, dataEmitted := true }

/-- The fulfilled continuation of publishDraft (topic.ts 237-247): when the
precondition promise resolves, a draft whose cancelled flag is set yields
the synthesized code-300 cancelled result without touching the network;
otherwise the draft is handed to publishMessage. -/
def publishDraftOnResolved (st : TopicState) (pub : Message) (resp : Except Nat PubCtrl) :
    TopicState × DraftOutcome × Bool :=
  if pub.cancelled then (st, DraftOutcome.cancelledResult 300, false)
  else publishMessage st pub resp

/-- Membership in a comparator insertion is membership in the inserted
element or the original list. -/
theorem mem_sortInsert (x r : DelRange) (l : List DelRange) :
    x ∈ sortInsert r l ↔ x = r ∨ x ∈ l := by
  induction l with
  | nil => simp [sortInsert]
  | cons y ys ih =>
    simp only [sortInsert]
    split
    · simp [List.mem_cons]
    · simp only [List.mem_cons, ih]
      tauto

/-- The JS sort is a permutation at the level of membership. -/
theorem mem_jsSortRanges (x : DelRange) (l : List DelRange) :
    x ∈ jsSortRanges l ↔ x ∈ l := by
  induction l with
  | nil => simp [jsSortRanges]
  | cons y ys ih => simp [jsSortRanges, mem_sortInsert, ih]

/-- A range list lying wholly at or above LOCAL_SEQ_ID contributes nothing
to the remote send list. -/
theorem delMessagesToSend_nil_of_provisional (maxSeq : Int) (rs : List DelRange)
    (h : ∀ r ∈ rs, LOCAL_SEQ_ID ≤ r.low) : delMessagesToSend maxSeq rs = [] := by
  induction rs with
  | nil => rfl
  | cons r rest ih =>
    have hr : ¬ r.low < LOCAL_SEQ_ID := not_lt.mpr (h r (List.mem_cons_self _ _))
    simp only [delMessagesToSend, if_neg hr]
    exact ih (fun x hx => h x (List.mem_cons_of_mem _ hx))

/-- Each flush step only removes messages. -/
theorem mem_of_mem_flushOne (m : Message) (msgs : List Message) (r : DelRange)
    (h : m ∈ flushOne msgs r) : m ∈ msgs := by
  unfold flushOne flushMessageRange flushMessage at h
  split at h <;> exact (List.mem_filter.mp h).1

/-- A whole flush pass only removes messages. -/
theorem mem_applyFlushes_sub (m : Message) (msgs : List Message) (rs : List DelRange)
    (h : m ∈ applyFlushes msgs rs) : m ∈ msgs := by
  induction rs generalizing msgs with
  | nil => exact h
  | cons r rest ih => exact mem_of_mem_flushOne m msgs r (ih (flushOne msgs r) h)

/-- After flushing a list containing an open-ended range, every surviving
message sits strictly below that range's low bound. -/
theorem seq_lt_of_mem_applyFlushes (low : Int) (m : Message) (msgs : List Message)
    (rs : List DelRange) (hr : ({ low := low, hi := none } : DelRange) ∈ rs)
    (h : m ∈ applyFlushes msgs rs) : m.seq < low := by
  induction rs generalizing msgs with
  | nil => cases hr
  | cons r rest ih =>
    rcases List.mem_cons.mp hr with heq | htail
    · have h2 : m ∈ flushOne msgs r := mem_applyFlushes_sub m _ rest h
      rw [← heq] at h2
      simp only [flushOne, jsTruthy, flushMessage, List.mem_filter,
        Bool.false_eq_true, if_false, decide_eq_true_eq] at h2
      exact h2.2
    · exact ih (flushOne msgs r) htail h

/-- Sorted insert keeps the inserted entry when its seq is fresh. -/
theorem mem_cbPut_self (l : List Message) (m : Message)
    (h : ∀ x ∈ l, x.seq ≠ m.seq) : m ∈ cbPut l m := by
  induction l with
  | nil => simp [cbPut]
  | cons x xs ih =>
    by_cases h1 : m.seq < x.seq
    · simp [cbPut, h1]
    · by_cases h2 : m.seq = x.seq
      · exact absurd h2.symm (h x (List.mem_cons_self _ _))
      · simp only [cbPut, if_neg h1, if_neg h2, List.mem_cons]
        exact Or.inr (ih fun y hy => h y (List.mem_cons_of_mem _ hy))

/-- Updating the binding found by a lookup is seen by the next lookup. -/
theorem usersLookup_usersUpdate (users : List (Nat × UserRec)) (uid : Nat) (v : UserRec)
    (u0 : UserRec) (h : usersLookup users uid = some u0) :
    usersLookup (usersUpdate users uid v) uid = some v := by
  induction users with
  | nil => simp [usersLookup] at h
  | cons p rest ih =>
    obtain ⟨k, w⟩ := p
    by_cases hk : k = uid
    · simp [usersUpdate, usersLookup, hk]
    · simp only [usersUpdate, usersLookup, if_neg hk] at h ⊢
      exact ih h

/-- Writing a watermark kind is read back by the same kind. -/
theorem getWm_setWm (u : UserRec) (w : NoteKind) (s : Int) :
    getWm (setWm u w s) w = some s := by
  cases w <;> rfl

/-- C1 (code bug): after inserting drafts with provisional seqs -1 and -2 in
that order, swapMessageId to 5 and then to 6 only overwrites the seq fields
in place — the removal and re-insertion that would restore ascending order
is commented out behind a FIXME in the source — so the final cache order is
[6, 5] and not the [5, 6] the claim states. -/
theorem swapMessageId_reposition_example :
    ((swapMessageId (swapMessageId (cbPut (cbPut [] (mkMsg (-1))) (mkMsg (-2))) (-1) 5) (-2) 6).map
        Message.seq = [6, 5])
    ∧ ((swapMessageId (swapMessageId (cbPut (cbPut [] (mkMsg (-1))) (mkMsg (-2))) (-1) 5) (-2) 6).map
        Message.seq ≠ [5, 6]) := by decide

/-- C2 (code bug): the comparator in delMessages returns 1 when
r1.low < r2.low, so the sort puts larger lows first — descending by low,
contradicting both the claim and the source's own comment.  On the input
with lows 1 and 3 the sorted lows are [3, 1], and 3 is not at most 1. -/
theorem delMessages_sort_descending :
    (jsSortRanges [⟨1, some 2⟩, ⟨3, some 4⟩]).map DelRange.low = [3, 1]
    ∧ ¬ ((3 : Int) ≤ 1) := by decide

/-- C3: on a subscribed topic, if a remote delete request was actually
issued (the tosend list is non-empty) and the Session collaborator rejects
it, delMessages leaves the whole topic state unchanged — message cache and
maxDel included, so no partial flush — and hands the same rejection back to
the caller. -/
theorem delMessages_rejected_no_flush (st : TopicState) (ranges : List DelRange) (e : Nat)
    (hsub : st.subscribed = true)
    (hsend : delMessagesToSend st.maxSeq (jsSortRanges ranges) ≠ []) :
    delMessages st ranges (Except.error e) = (st, DelOutcome.remoteRejected e, true) := by
  have h2 : (delMessagesToSend st.maxSeq (jsSortRanges ranges)).isEmpty = false := by
    cases h : delMessagesToSend st.maxSeq (jsSortRanges ranges) with
    | nil => exact absurd h hsend
    | cons a l => rfl
  unfold delMessages
  simp [hsub, h2]

/-- Witness for C3 at a concrete subscribed state and one confirmed-space
range. -/
theorem delMessages_rejected_no_flush_witness :
    delMessages ⟨true, 5, 0, [], LOCAL_SEQ_ID⟩ [⟨1, some 2⟩] (Except.error 7)
      = (⟨true, 5, 0, [], LOCAL_SEQ_ID⟩, DelOutcome.remoteRejected 7, true) :=
  delMessages_rejected_no_flush ⟨true, 5, 0, [], LOCAL_SEQ_ID⟩ [⟨1, some 2⟩] 7
    (by decide) (by decide)

/-- C4 counterexample: with maxSeq = 5, the input range from 1 with given
hi 8 is forwarded to the server unchanged, and its upper bound 8 exceeds
maxSeq + 1 = 6 — the clip only fires when hi reaches LOCAL_SEQ_ID, so the
claimed universal bound is false. -/
theorem delMessages_clip_counterexample :
    delMessagesToSend 5 (jsSortRanges [⟨1, some 8⟩]) = [⟨1, some 8⟩]
    ∧ ¬ ((8 : Int) ≤ 5 + 1) := by decide

/-- C4 (amended): every range in the toSendRemotely set starts below
LOCAL_SEQ_ID, and either keeps its original upper bound — hi falsy, or hi
given and below LOCAL_SEQ_ID, which may exceed maxSeq + 1 — or, when its
given hi reached provisional space, has been clipped to exactly maxSeq + 1. -/
theorem delMessages_clip_amended (maxSeq : Int) (rs : List DelRange) (r : DelRange)
    (h : r ∈ delMessagesToSend maxSeq rs) :
    r.low < LOCAL_SEQ_ID ∧
      (jsTruthy r.hi = false ∨ jsLt r.hi LOCAL_SEQ_ID = true ∨ r.hi = some (maxSeq + 1)) := by
  induction rs with
  | nil => cases h
  | cons x xs ih =>
    simp only [delMessagesToSend] at h
    by_cases hx : x.low < LOCAL_SEQ_ID
    · rw [if_pos hx] at h
      by_cases hcond : (!jsTruthy x.hi || jsLt x.hi LOCAL_SEQ_ID) = true
      · rw [if_pos hcond] at h
        rcases List.mem_cons.mp h with heq | htail
        · subst heq
          refine ⟨hx, ?_⟩
          rcases Bool.or_eq_true_iff.mp hcond with h1 | h2
          · exact Or.inl (by simpa using h1)
          · exact Or.inr (Or.inl h2)
        · exact ih htail
      · rw [if_neg hcond] at h
        rcases List.mem_cons.mp h with heq | htail
        · subst heq
          exact ⟨hx, Or.inr (Or.inr rfl)⟩
        · exact ih htail
    · rw [if_neg hx] at h
      exact ih h

/-- Witness for C4's amended theorem: with maxSeq = 5 the range reaching
provisional space comes back clipped to hi = 6. -/
theorem delMessages_clip_amended_witness :
    (⟨1, some 6⟩ : DelRange).low < LOCAL_SEQ_ID ∧
      (jsTruthy (⟨1, some 6⟩ : DelRange).hi = false ∨
       jsLt (⟨1, some 6⟩ : DelRange).hi LOCAL_SEQ_ID = true ∨
       (⟨1, some 6⟩ : DelRange).hi = some (5 + 1)) :=
  delMessages_clip_amended 5 [⟨1, some (LOCAL_SEQ_ID + 1)⟩] ⟨1, some 6⟩ (by decide)

/-- C5: on a delMessages call that succeeds, a range whose hi is absent is
flushed as the half-open interval from low to the end of the known range:
no message with seq at or above low survives in the local cache. -/
theorem delMessages_open_range_flush (st : TopicState) (ranges : List DelRange)
    (resp : Except Nat DelCtrl) (ctrl : DelCtrl) (low : Int) (m : Message)
    (hok : (delMessages st ranges resp).2.1 = DelOutcome.ok ctrl)
    (hr : ({ low := low, hi := none } : DelRange) ∈ ranges)
    (hm : m ∈ (delMessages st ranges resp).1.messages) :
    m.seq < low := by
  have hsorted : ({ low := low, hi := none } : DelRange) ∈ jsSortRanges ranges :=
    (mem_jsSortRanges _ _).mpr hr
  unfold delMessages at hok hm
  by_cases hsub : st.subscribed = false
  · rw [if_pos hsub] at hok
    simp at hok
  · rw [if_neg hsub] at hok hm
    by_cases hemp : (delMessagesToSend st.maxSeq (jsSortRanges ranges)).isEmpty = true
    · rw [if_pos hemp] at hm
      exact seq_lt_of_mem_applyFlushes low m st.messages _ hsorted hm
    · rw [if_neg hemp] at hok hm
      cases resp with
      | error e => simp at hok
      | ok c => exact seq_lt_of_mem_applyFlushes low m st.messages _ hsorted hm

/-- Witness for C5: deleting from 3 with absent hi on a cache holding seqs
2 and 5 leaves only messages strictly below 3. -/
theorem delMessages_open_range_flush_witness : (mkMsg 2).seq < 3 :=
  delMessages_open_range_flush ⟨true, 5, 0, [mkMsg 2, mkMsg 5], LOCAL_SEQ_ID⟩ [⟨3, none⟩]
    (Except.ok ⟨1⟩) ⟨1⟩ 3 (mkMsg 2) (by decide) (by decide) (by decide)

/-- C6: when every input range starts in provisional space (at or above
LOCAL_SEQ_ID), the toSendRemotely list is empty, delMessages succeeds with
the synthesized del-0 control and no remote call (the Bool is false, the
Session response is never consulted), and the non-empty sorted range list
is still applied to the local cache by delApply. -/
theorem delMessages_provisional_only (st : TopicState) (ranges : List DelRange)
    (resp : Except Nat DelCtrl)
    (hsub : st.subscribed = true)
    (hne : ranges ≠ [])
    (hall : ∀ r ∈ ranges, LOCAL_SEQ_ID ≤ r.low) :
    delMessagesToSend st.maxSeq (jsSortRanges ranges) = [] ∧
    delMessages st ranges resp =
      (delApply st (jsSortRanges ranges) { del := 0 }, DelOutcome.ok { del := 0 }, false) ∧
    jsSortRanges ranges ≠ [] := by
  have hall2 : ∀ r ∈ jsSortRanges ranges, LOCAL_SEQ_ID ≤ r.low := fun r hrm =>
    hall r ((mem_jsSortRanges _ _).mp hrm)
  have hts : delMessagesToSend st.maxSeq (jsSortRanges ranges) = [] :=
    delMessagesToSend_nil_of_provisional _ _ hall2
  refine ⟨hts, ?_, ?_⟩
  · unfold delMessages
    rw [if_neg (by simp [hsub]), if_pos (by rw [hts]; rfl)]
  · rcases ranges with _ | ⟨r, rest⟩
    · exact absurd rfl hne
    · exact List.ne_nil_of_mem ((mem_jsSortRanges r _).mpr (List.mem_cons_self _ _))

/-- Witness for C6 at one wholly provisional range; the Session response
supplied is never used. -/
theorem delMessages_provisional_only_witness :
    delMessagesToSend 5 (jsSortRanges [⟨LOCAL_SEQ_ID + 2, some (LOCAL_SEQ_ID + 4)⟩]) = [] ∧
    delMessages ⟨true, 5, 0, [], LOCAL_SEQ_ID⟩ [⟨LOCAL_SEQ_ID + 2, some (LOCAL_SEQ_ID + 4)⟩]
        (Except.ok ⟨9⟩) =
      (delApply ⟨true, 5, 0, [], LOCAL_SEQ_ID⟩
        (jsSortRanges [⟨LOCAL_SEQ_ID + 2, some (LOCAL_SEQ_ID + 4)⟩]) { del := 0 },
       DelOutcome.ok { del := 0 }, false) ∧
    jsSortRanges [⟨LOCAL_SEQ_ID + 2, some (LOCAL_SEQ_ID + 4)⟩] ≠ [] :=
  delMessages_provisional_only ⟨true, 5, 0, [], LOCAL_SEQ_ID⟩
    [⟨LOCAL_SEQ_ID + 2, some (LOCAL_SEQ_ID + 4)⟩] (Except.ok ⟨9⟩)
    (by decide) (by decide) (by decide)

/-- C7 counterexample: on a subscribed topic, a record whose read watermark
is the stored value 0 accepts note(read, -1) — the JS guard treats the
stored 0 as falsy — so the watermark is overwritten with the smaller value
-1 and a network notification is sent, although -1 is not strictly greater
than 0 and nothing increased. -/
theorem note_zero_watermark_counterexample :
    note true [(7, ⟨none, some 0⟩)] 7 NoteKind.read (-1) =
      ⟨[(7, ⟨none, some (-1)⟩)], true, false⟩ ∧ ¬ ((0 : Int) < -1) := by decide

/-- C7 (amended): note updates the stored watermark exactly when the stored
value is JS-falsy (absent or 0) or seq is strictly greater; when it
updates, the network notification is sent exactly while the topic is
subscribed (an inactive topic still gets the local update with no send);
and once a watermark holds a nonzero value it is monotonically
non-decreasing. -/
theorem note_watermark_amended (sub : Bool) (users : List (Nat × UserRec)) (uid : Nat)
    (w : NoteKind) (seq : Int) (u0 : UserRec)
    (hu : usersLookup users uid = some u0) :
    ((!jsTruthy (getWm u0 w) || jsLt (getWm u0 w) seq) = false →
        note sub users uid w seq = ⟨users, false, false⟩) ∧
    ((!jsTruthy (getWm u0 w) || jsLt (getWm u0 w) seq) = true →
        note sub users uid w seq = ⟨usersUpdate users uid (setWm u0 w seq), sub, false⟩) ∧
    (∀ v : Int, getWm u0 w = some v → v ≠ 0 →
      ∀ u1 : UserRec, usersLookup (note sub users uid w seq).users uid = some u1 →
      ∀ v1 : Int, getWm u1 w = some v1 → v ≤ v1) := by
  refine ⟨?_, ?_, ?_⟩
  · intro hc
    simp only [note, hu]
    rw [if_neg (by simp [hc])]
  · intro hc
    simp only [note, hu]
    rw [if_pos hc]
  · intro v hv hv0 u1 hu1 v1 hv1
    simp only [note, hu] at hu1
    by_cases hlt : v < seq
    · have hg : (!jsTruthy (getWm u0 w) || jsLt (getWm u0 w) seq) = true := by
        rw [hv]
        simp [jsTruthy, jsLt, hlt]
      rw [if_pos hg] at hu1
      rw [usersLookup_usersUpdate users uid (setWm u0 w seq) u0 hu] at hu1
      injection hu1 with hu2
      rw [← hu2, getWm_setWm] at hv1
      injection hv1 with hv2
      rw [← hv2]
      exact le_of_lt hlt
    · have hg : (!jsTruthy (getWm u0 w) || jsLt (getWm u0 w) seq) = false := by
        rw [hv]
        simp [jsTruthy, jsLt, hv0, hlt]
      rw [if_neg (by simp [hg])] at hu1
      rw [hu] at hu1
      injection hu1 with hu2
      rw [← hu2, hv] at hv1
      injection hv1 with hv2
      rw [← hv2]

/-- Witness for C7's amended theorem, realizing the spec's example: with the
read watermark stored at 5, note(read, 3) changes nothing and sends
nothing. -/
theorem note_watermark_amended_witness :
    note true [(7, ⟨none, some 5⟩)] 7 NoteKind.read 3 =
      ⟨[(7, ⟨none, some 5⟩)], false, false⟩ :=
  (note_watermark_amended true [(7, ⟨none, some 5⟩)] 7 NoteKind.read 3 ⟨none, some 5⟩
    (by decide)).1 (by decide)

/-- C8: a draft whose cancelled flag is set by the time the precondition
promise resolves yields the synthesized code-300 cancelled result — a
fulfilled value, not an error — with the topic state untouched and the
Session collaborator's publish operation never invoked. -/
theorem publishDraft_cancelled_no_publish (st : TopicState) (pub : Message)
    (resp : Except Nat PubCtrl) (hc : pub.cancelled = true) :
    publishDraftOnResolved st pub resp = (st, DraftOutcome.cancelledResult 300, false) := by
  unfold publishDraftOnResolved
  rw [if_pos hc]

/-- Witness for C8 on a subscribed topic with a successful response on
offer: cancellation alone suppresses the publish. -/
theorem publishDraft_cancelled_no_publish_witness :
    publishDraftOnResolved ⟨true, 0, 0, [], 0⟩ { mkMsg 5 with cancelled := true }
        (Except.ok ⟨9⟩)
      = (⟨true, 0, 0, [], 0⟩, DraftOutcome.cancelledResult 300, false) :=
  publishDraft_cancelled_no_publish ⟨true, 0, 0, [], 0⟩ { mkMsg 5 with cancelled := true }
    (Except.ok ⟨9⟩) (by decide)

/-- C9: when the acting user has no record in the users map, note reports
the missing-user error, leaves the users map (hence both watermarks)
unchanged, and sends no network notification. -/
theorem note_missing_user (sub : Bool) (users : List (Nat × UserRec)) (uid : Nat)
    (w : NoteKind) (seq : Int) (h : usersLookup users uid = none) :
    note sub users uid w seq = ⟨users, false, true⟩ := by
  unfold note
  rw [h]

/-- Witness for C9 on an empty users map. -/
theorem note_missing_user_witness :
    note true [] 0 NoteKind.read 5 = ⟨[], false, true⟩ :=
  note_missing_user true [] 0 NoteKind.read 5 (by decide)

/-- C10: with a precondition promise supplied, publishDraft skips the
inactive check at queue time: on an unsubscribed topic the fresh draft gets
a provisional seq above LOCAL_SEQ_ID, lands in the message cache, and the
data-changed notification fires synchronously; the inactive-topic rejection
arises only later, in the send attempted after the promise resolves, where
the Session publish is still never invoked. -/
theorem publishDraft_promise_skips_inactive (st : TopicState) (pub : Message)
    (resp : Except Nat PubCtrl)
    (hsub : st.subscribed = false)
    (hnf : pub.noForwarding = false)
    (hseq : pub.seq = 0)
    (hcan : pub.cancelled = false)
    (hq : LOCAL_SEQ_ID ≤ st.queuedSeqId)
    (hfresh : ∀ m ∈ st.messages, m.seq ≠ getQueuedSeqId st) :
    (publishDraftQueue st pub true).queueRejected = false ∧
    (publishDraftQueue st pub true).dataEmitted = true ∧
    LOCAL_SEQ_ID < (publishDraftQueue st pub true).pub.seq ∧
    (publishDraftQueue st pub true).pub ∈ (publishDraftQueue st pub true).st.messages ∧
    publishDraftOnResolved (publishDraftQueue st pub true).st (publishDraftQueue st pub true).pub
        resp
      = ((publishDraftQueue st pub true).st, DraftOutcome.rejectedInactive, false) := by
  have hqr : publishDraftQueue st pub true =
      { st := { st with
                  messages := cbPut st.messages
                    { pub with seq := st.queuedSeqId + 1, noForwarding := true },
                  queuedSeqId := st.queuedSeqId + 1 },
        pub := { pub with seq := st.queuedSeqId + 1, noForwarding := true },
        queueRejected := false, dataEmitted := true } := by
    unfold publishDraftQueue
    simp [hseq, hnf, getQueuedSeqId]
  rw [hqr]
  refine ⟨rfl, rfl, ?_, ?_, ?_⟩
  · exact lt_of_le_of_lt hq (lt_add_one _)
  · exact mem_cbPut_self st.messages _ (fun x hx => hfresh x hx)
  · unfold publishDraftOnResolved publishMessage
    rw [if_neg (by simp [hcan]), if_pos hsub]

/-- Witness for C10 on an empty unsubscribed topic with a fresh draft. -/
theorem publishDraft_promise_skips_inactive_witness :
    (publishDraftQueue ⟨false, 0, 0, [], LOCAL_SEQ_ID⟩ (mkMsg 0) true).queueRejected = false ∧
    (publishDraftQueue ⟨false, 0, 0, [], LOCAL_SEQ_ID⟩ (mkMsg 0) true).dataEmitted = true ∧
    LOCAL_SEQ_ID < (publishDraftQueue ⟨false, 0, 0, [], LOCAL_SEQ_ID⟩ (mkMsg 0) true).pub.seq ∧
    (publishDraftQueue ⟨false, 0, 0, [], LOCAL_SEQ_ID⟩ (mkMsg 0) true).pub ∈
      (publishDraftQueue ⟨false, 0, 0, [], LOCAL_SEQ_ID⟩ (mkMsg 0) true).st.messages ∧
    publishDraftOnResolved (publishDraftQueue ⟨false, 0, 0, [], LOCAL_SEQ_ID⟩ (mkMsg 0) true).st
        (publishDraftQueue ⟨false, 0, 0, [], LOCAL_SEQ_ID⟩ (mkMsg 0) true).pub (Except.ok ⟨9⟩)
      = ((publishDraftQueue ⟨false, 0, 0, [], LOCAL_SEQ_ID⟩ (mkMsg 0) true).st,
         DraftOutcome.rejectedInactive, false) :=
  publishDraft_promise_skips_inactive ⟨false, 0, 0, [], LOCAL_SEQ_ID⟩ (mkMsg 0) (Except.ok ⟨9⟩)
    (by decide) (by decide) (by decide) (by decide) (by decide) (by decide)
